import Mathlib

/-!
Verification of the rotation and playback control engine of the
radio-automation repository.

The development shallowly embeds the relevant parts of `app/audio_engine.py`,
`app/scheduler.py` and `app/models.py`.  Python functions become Lean
functions; the database-backed key/value store (`SystemState`) becomes an
association list threaded through the steps; fallible operations return
`Option`.  Machine details that the claims do not touch (the Flask app
context, the WebSocket broadcast, SQL ordering) are noted where they are
abstracted.
-/

namespace RadioAutomation

/-- `charSeqAt needle hay` holds when `needle` occurs at the head of
`hay`. -/
def charSeqAt : List Char → List Char → Bool
  | [], _ => true
  | _ :: _, [] => false
  | c :: cs, d :: ds => c = d && charSeqAt cs ds

/-- `charSeqIn needle hay` holds when `needle` occurs contiguously
somewhere in `hay`. -/
def charSeqIn (needle : List Char) : List Char → Bool
  | [] => needle.isEmpty
  | d :: ds => charSeqAt needle (d :: ds) || charSeqIn needle ds

/-- Substring test: `strContains hay needle` models the Python expression
`needle in hay` on strings. -/
def strContains (hay needle : String) : Bool :=
  charSeqIn needle.data hay.data

/-- Python `s.startswith(pre)`. -/
def strStarts (s pre : String) : Bool :=
  charSeqAt pre.data s.data

/-- Split a character list at every occurrence of `c` (the separator is
dropped; empty runs are kept, as in Python `str.split` with an explicit
separator). -/
def splitCharAux (c : Char) : List Char → List (List Char)
  | [] => [[]]
  | d :: ds =>
      match splitCharAux c ds with
      | [] => [[]]
      | g :: gs => if d = c then [] :: g :: gs else (d :: g) :: gs

/-- Python `s.split(sep)` for a one-character separator. -/
def pySplit (s : String) (c : Char) : List String :=
  (splitCharAux c s.data).map String.mk

/-! ## Wall-clock time

`datetime.now()` values carry calendar fields (used by formatting and by
the gates) together with the absolute time in seconds (used by datetime
subtraction, `total_seconds()`).  Sub-second precision is not used by any
of the embedded code paths, so times are modeled at second granularity. -/

structure DateTimeM where
  year : Nat
  month : Nat
  mday : Nat
  hour : Nat
  minute : Nat
  second : Nat
  /-- `datetime.weekday()`: 0 = Monday .. 6 = Sunday. -/
  weekday : Nat
  /-- Absolute POSIX seconds; `(a - b).total_seconds()` is `a.abs - b.abs`. -/
  abs : Int
deriving DecidableEq

/-- Seconds since midnight; `datetime.time` objects compare
lexicographically by (hour, minute, second, microsecond), which at second
granularity is exactly the order of this value. -/
def timeOfDay (t : DateTimeM) : Nat :=
  t.hour * 3600 + t.minute * 60 + t.second

/-- The hour bucket `now.strftime("%Y-%m-%d %H")` of the `at_minute`
branch, modeled by the four calendar fields the format string prints.
The format is injective and zero-padded, so equality of the formatted
strings is equality of these fields. -/
structure HourBucket where
  year : Nat
  month : Nat
  mday : Nat
  hour : Nat
deriving DecidableEq

def nowBucket (t : DateTimeM) : HourBucket :=
  ⟨t.year, t.month, t.mday, t.hour⟩

/-! ## Control Channel (`audio_engine.send_liquidsoap_command`)

The function opens a socket, sends the command, then loops on `recv`:

* a nonempty chunk is appended to the buffer; the loop stops when the
  accumulated buffer contains the token `END`;
* an empty chunk (peer closed the connection) breaks out of the loop,
  returning the buffer accumulated so far — the `if not data: break` branch;
* a `socket.timeout` inside the loop also breaks out, returning the buffer
  accumulated so far;
* any exception raised outside the recv loop (connect or send failure, or a
  non-timeout recv error) is caught by the outer `try` and the function
  returns `None`.

We model one call by the sequence of recv results the socket produces.
`RecvEvent.data ""` is a peer close (Python `recv` returning `b''`);
`RecvEvent.timedOut` is a `socket.timeout` during `recv`.  An exhausted
event list stands for a trace that ends without close or timeout and
returns the buffer as well (unreachable for well-formed socket traces,
which always end in a close or a timeout). -/

inductive RecvEvent where
  | data (s : String)
  | timedOut
deriving DecidableEq

/-- The `while True: data = sock.recv(4096) ...` loop of
`send_liquidsoap_command`, accumulating into `acc`. -/
def recvLoop : List RecvEvent → String → String
  | [], acc => acc
  | RecvEvent.data s :: rest, acc =>
      if s.isEmpty then acc
      else
        let acc2 := acc ++ s
        if strContains acc2 "END" then acc2 else recvLoop rest acc2
  | RecvEvent.timedOut :: _, acc => acc

/-- ASCII whitespace as stripped by Python `str.strip()`. -/
def wsChar (c : Char) : Bool :=
  c = ' ' || c = '\t' || c = '\n' || c = '\r' || c = '\x0b' || c = '\x0c'

/-- Python `s.strip()`: remove leading and trailing whitespace. -/
def pyStrip (s : String) : String :=
  String.mk (((s.data.dropWhile wsChar).reverse.dropWhile wsChar).reverse)

/-- Outcome of one socket session: either the connection attempt (or the
send) raises, or the socket is usable and produces a sequence of recv
events. -/
inductive NetOutcome where
  | connectError
  | session (events : List RecvEvent)
deriving DecidableEq

/-- `audio_engine.send_liquidsoap_command`: `None` when the outer `try`
catches an exception, otherwise the decoded accumulated buffer, stripped
(Python `.strip()`). -/
def send_liquidsoap_command : NetOutcome → Option String
  | NetOutcome.connectError => none
  | NetOutcome.session evs => some (pyStrip (recvLoop evs ""))

/-! ## Queue Dispatcher (`audio_engine.insert_from_category` and friends)

Functions below that talk to the engine are parameterized by the response
the Control Channel returned for the command they send (an `Option String`,
`none` being a transport failure), mirroring the call
`send_liquidsoap_command(...)` whose outcome depends on the network. -/

/-- Catalog entry (`models.AudioFile`).  `title`/`artist` are nullable
text columns; Python treats `None` and `""` identically under `or`, so both
are modeled by `""`.  `duration` is only ever copied, never computed with,
so the float column is modeled by `Int`. -/
structure AudioFile where
  id : Nat
  filename : String
  category : String
  path : String
  duration : Int
  title : String
  artist : String
  is_active : Bool
  play_count : Nat
  last_played : Option DateTimeM
deriving DecidableEq

/-- `audio_engine.queue_track`: sends `push <filepath>` and returns
`response is not None` — the `ERROR` marker is not inspected. -/
def queue_track (response : Option String) : Bool :=
  response.isSome

/-- `audio_engine.skip_current_track`: sends `skip` and returns
`response is not None`. -/
def skip_current_track (response : Option String) : Bool :=
  response.isSome

/-- `audio_engine.remove_from_queue`: sends `queue.skip`; success is
`response is not None and "ERROR" not in str(response)`. -/
def remove_from_queue (response : Option String) : Bool :=
  match response with
  | none => false
  | some s => !(strContains s "ERROR")

/-- `audio_engine.clear_moderation_queue`: sends
`moderation_queue.flush_and_skip`; success is
`response is not None and "ERROR" not in str(response)`. -/
def clear_moderation_queue (response : Option String) : Bool :=
  match response with
  | none => false
  | some s => !(strContains s "ERROR")

/-- The moderation category set of `insert_from_category`. -/
def moderationCategories : List String :=
  ["random-moderation", "planned-moderation"]

/-- The queue command built by `insert_from_category`: moderation
categories push to `moderation_queue`, every other category to `queue`. -/
def queueCommand (category path : String) : String :=
  if category ∈ moderationCategories then
    "moderation_queue.push " ++ path
  else
    "queue.push " ++ path

/-- The `command_map` dictionary of `insert_from_category` (its
directory-based fallback), `.get` returning `None` for unknown keys. -/
def command_map (category : String) : Option String :=
  if category = "jingles" then some "jingle"
  else if category = "promos" then some "promo"
  else if category = "ads" then some "ad"
  else if category = "random-moderation" then some "random_mod"
  else if category = "planned-moderation" then some "planned_mod"
  else none

/-- The fallback tail of `insert_from_category`: look the category up in
`command_map`; if found, send the bare command and report
`response is not None`; otherwise report `False`. -/
def insertFallback (category : String) (respond : String → Option String) : Bool :=
  match command_map category with
  | some c => (respond c).isSome
  | none => false

/-- `audio_engine.insert_from_category`.  `audio_file` is the result of the
database query `get_random_file_from_category(category)`; `respond` gives
the Control Channel response for each command sent.  When a file with a
nonempty path is found, the queue-specific push command is sent and success
is `response is not None and "ERROR" not in str(response)`; on failure the
code falls through to the directory-based fallback. -/
def insert_from_category (category : String) (audio_file : Option AudioFile)
    (respond : String → Option String) : Bool :=
  match audio_file with
  | some f =>
      if f.path ≠ "" then
        match respond (queueCommand category f.path) with
        | some r => if strContains r "ERROR" then insertFallback category respond else true
        | none => insertFallback category respond
      else insertFallback category respond
  | none => insertFallback category respond

/-! ## The persistent key/value store (`models.SystemState`)

`SystemState` maps string keys to string values.  The embedded code writes
exactly four shapes of value and only ever compares them for string
equality, parses them, or tests them for emptiness:

* `str(counter)` — the decimal form of an integer (`after_songs` counters);
* `now.isoformat()` — an ISO-8601 timestamp (`interval` cursors);
* `now.strftime("%Y-%m-%d %H")` — an hour bucket (`at_minute` cursors);
* other raw strings (the track identity `filename + "_" + on_air`).

The four encodings are injective and pairwise disjoint (a decimal string
has no `-` after its first character and no space, an ISO timestamp
contains `T` and `:`, an hour bucket contains a space but no `T` or `_`,
and the raw strings the poller writes always contain `_`), so a stored
string is modeled by its decoded shape: string equality between values of
different shapes is `false`, and parsing a value of the wrong shape fails
(`ValueError` in Python). -/

inductive SVal where
  /-- `str(n)` for an integer `n`. -/
  | intVal (n : Int)
  /-- `t.isoformat()` for a datetime `t`. -/
  | timeVal (t : DateTimeM)
  /-- `t.strftime("%Y-%m-%d %H")`. -/
  | bucketVal (b : HourBucket)
  /-- Any other string. -/
  | rawStr (s : String)
deriving DecidableEq

/-- The store: an association list keyed by the unique `key` column. -/
abbrev SysState := List (String × SVal)

/-- `SystemState.get(key)` (`None` when no row exists). -/
def sysGet : SysState → String → Option SVal
  | [], _ => none
  | (k, v) :: rest, key => if k = key then some v else sysGet rest key

/-- `SystemState.set(key, value)`: update the row in place, or insert a
new one. -/
def sysSet : SysState → String → SVal → SysState
  | [], key, v => [(key, v)]
  | (k, w) :: rest, key, v =>
      if k = key then (k, v) :: rest else (k, w) :: sysSet rest key v

/-- Python truthiness of the fetched value: `None` and the empty string
are falsy; decimal, ISO and bucket strings are never empty. -/
def svalFalsy : Option SVal → Bool
  | none => true
  | some (SVal.rawStr s) => s.isEmpty
  | some _ => false

/-- String equality between a stored value and the current hour-bucket
string (`last_trigger != now.strftime("%Y-%m-%d %H")` negated).  Only a
bucket-shaped string can equal a bucket string. -/
def svalEqBucket : Option SVal → HourBucket → Bool
  | some (SVal.bucketVal b), b2 => b = b2
  | _, _ => false

/-- `int(...)` applied to a stored value: the decimal shape parses to its
integer; every other shape raises `ValueError` (`none`). -/
def svalToInt? : SVal → Option Int
  | SVal.intVal n => some n
  | _ => none

/-! ## Rotation rules (`models.RotationRule`) -/

/-- A rotation-rule row.  `days_of_week` is stored as a comma-separated
string and parsed with `[int(d) for d in rule.days_of_week.split(",") if d]`
at every use; it is modeled by the parsed list.  `time_start`/`time_end`
are nullable time columns, modeled as seconds since midnight. -/
structure RotationRule where
  id : Nat
  name : String
  rule_type : String
  category : String
  interval_value : Int
  time_start : Option Nat
  time_end : Option Nat
  minute_of_hour : Option Nat
  days_of_week : List Nat
  priority : Int
  is_active : Bool
deriving DecidableEq

/-- Key `rule_{id}_last_trigger`. -/
def ruleLastTriggerKey (i : Nat) : String :=
  "rule_" ++ toString i ++ "_last_trigger"

/-- Key `rule_{id}_song_counter`. -/
def ruleCounterKey (i : Nat) : String :=
  "rule_" ++ toString i ++ "_song_counter"

/-- The day gate shared by `check_rotation_rules` and
`increment_song_counter`: the current weekday must be listed. -/
def dayGateOk (r : RotationRule) (now : DateTimeM) : Bool :=
  r.days_of_week.contains now.weekday

/-- The time gate: when both bounds are set, the current time of day must
lie in the closed interval; otherwise the gate passes. -/
def timeGateOk (r : RotationRule) (now : DateTimeM) : Bool :=
  match r.time_start, r.time_end with
  | some a, some b => decide (a ≤ timeOfDay now) && decide (timeOfDay now ≤ b)
  | _, _ => true

/-! ## Rotation Rule Evaluator (`scheduler.check_rotation_rules`) -/

/-- The `at_minute` firing condition on the stored cursor:
`not last_trigger or last_trigger != now.strftime("%Y-%m-%d %H")`. -/
def atMinuteDue (b : HourBucket) (v : Option SVal) : Bool :=
  svalFalsy v || !(svalEqBucket v b)

/-- The `should_trigger` computation of the `interval` branch on the
stored cursor: a falsy stored value (no row, or an empty string) fires via
the `else` branch; a nonempty value that `fromisoformat` cannot parse
fires via the `ValueError` handler; a parsed timestamp fires exactly when
the elapsed seconds reach `interval_value * 60`. -/
def intervalDue (iv nowAbs : Int) : Option SVal → Bool
  | some (SVal.timeVal t) => decide (nowAbs - t.abs ≥ iv * 60)
  | _ => true

/-- The per-rule body of the evaluator loop (lines 89-141 of
`scheduler.py`).  Returns the updated store and whether
`insert_from_category(rule.category)` was invoked for this rule.
The `at_minute` guard `minute_of_hour is not None` together with
`current_minute == rule.minute_of_hour` is the single test
`minute_of_hour = some now.minute`; the `after_songs` branch is an
explicit `continue`, and a rule type with no branch leaves
`should_trigger` false — both yield the no-op result. -/
def checkRuleStep (r : RotationRule) (now : DateTimeM) (sys : SysState) :
    SysState × Bool :=
  if ¬ dayGateOk r now then (sys, false)
  else if ¬ timeGateOk r now then (sys, false)
  else if r.rule_type = "at_minute" then
    if r.minute_of_hour = some now.minute then
      if atMinuteDue (nowBucket now) (sysGet sys (ruleLastTriggerKey r.id)) then
        (sysSet sys (ruleLastTriggerKey r.id)
          (SVal.bucketVal (nowBucket now)), true)
      else (sys, false)
    else (sys, false)
  else if r.rule_type = "interval" then
    if r.interval_value > 0 then
      if intervalDue r.interval_value now.abs
          (sysGet sys (ruleLastTriggerKey r.id)) then
        (sysSet sys (ruleLastTriggerKey r.id) (SVal.timeVal now), true)
      else (sys, false)
    else (sys, false)
  else (sys, false)

/-- The loop of `check_rotation_rules` over the active rules, in query
order, collecting the categories dispatched to `insert_from_category`. -/
def checkRulesGo : List RotationRule → DateTimeM → SysState →
    SysState × List String
  | [], _, sys => (sys, [])
  | r :: rest, now, sys =>
      ((checkRulesGo rest now (checkRuleStep r now sys).1).1,
       (if (checkRuleStep r now sys).2 then [r.category] else [])
         ++ (checkRulesGo rest now (checkRuleStep r now sys).1).2)

/-- `scheduler.check_rotation_rules`: filter to active rules
(`filter_by(is_active=True)`; the descending-priority ordering of the
query is the order of the input list) and run the loop. -/
def check_rotation_rules (rules : List RotationRule) (now : DateTimeM)
    (sys : SysState) : SysState × List String :=
  checkRulesGo (rules.filter (fun r => r.is_active)) now sys

/-- Iterate the per-rule evaluator step of a single rule over a sequence
of evaluator invocations (ticks), counting its fires.  Distinct rules use
distinct `rule_{id}_...` keys, so the evolution of one rule's cursor is
independent of the other rules processed in the same ticks. -/
def runRuleTicks (r : RotationRule) : List DateTimeM → SysState →
    SysState × Nat
  | [], sys => (sys, 0)
  | t :: ts, sys =>
      ((runRuleTicks r ts (checkRuleStep r t sys).1).1,
       (if (checkRuleStep r t sys).2 then 1 else 0)
         + (runRuleTicks r ts (checkRuleStep r t sys).1).2)

/-! ## Song-Count Trigger (`scheduler.increment_song_counter`) -/

/-- `int(SystemState.get(counter_key, "0"))`: a missing row takes the
default `"0"`; a stored value parses per `svalToInt?`. -/
def counterValue? : Option SVal → Option Int
  | none => some 0
  | some v => svalToInt? v

/-- The loop body of `increment_song_counter` over the queried rules.
Returns `none` when `int(...)` raises on a malformed stored counter
(the exception propagates and aborts the remaining rules); otherwise the
updated store and the categories dispatched to `insert_from_category`. -/
def incSongGo : List RotationRule → DateTimeM → SysState → List String →
    Option (SysState × List String)
  | [], _, sys, acc => some (sys, acc)
  | r :: rest, now, sys, acc =>
      if ¬ dayGateOk r now then incSongGo rest now sys acc
      else if ¬ timeGateOk r now then incSongGo rest now sys acc
      else
        match counterValue? (sysGet sys (ruleCounterKey r.id)) with
        | none => none
        | some c0 =>
            if c0 + 1 ≥ r.interval_value then
              incSongGo rest now (sysSet sys (ruleCounterKey r.id) (SVal.intVal 0))
                (acc ++ [r.category])
            else
              incSongGo rest now
                (sysSet sys (ruleCounterKey r.id) (SVal.intVal (c0 + 1))) acc

/-- `scheduler.increment_song_counter`: for every active `after_songs`
rule (`filter_by(rule_type="after_songs", is_active=True)`) passing the
day and time gates, increment its persisted counter; at threshold,
dispatch the rule's category and reset the counter to `"0"`. -/
def increment_song_counter (rules : List RotationRule) (now : DateTimeM)
    (sys : SysState) : Option (SysState × List String) :=
  incSongGo
    (rules.filter (fun r => r.rule_type = "after_songs" && r.is_active))
    now sys []

/-- Iterate `increment_song_counter` over `n` consecutive qualifying track
changes observed at time `now`, counting the total number of dispatches. -/
def incIter (rules : List RotationRule) (now : DateTimeM) (sys : SysState) :
    Nat → Option (SysState × Nat)
  | 0 => some (sys, 0)
  | n + 1 =>
      (incIter rules now sys n).bind (fun p =>
        (increment_song_counter rules now p.1).map (fun q =>
          (q.1, p.2 + q.2.length)))

/-! ## Schedule Runner (`scheduler.check_scheduled_shows`)

Per-schedule processing.  The SQL query restricts to active schedules whose
`scheduled_time` lies within one minute of `now` on either side; the loop
then checks `last_run` recency and, for weekly repeats, the day of week.
On fire it enqueues the paths of the show items (in `position` order) via
`queue_track`, sets `last_run`, advances `scheduled_time` for repeats, and
deactivates `once` schedules.  Times are absolute seconds. -/

/-- A schedule row (`models.Schedule`).  `show_items` is the path list of
the associated show's items with an audio file, in position order (a
schedule whose show is missing behaves like one with no items). -/
structure Schedule where
  id : Nat
  show_items : List String
  scheduled_time : Int
  repeat_type : String
  days_of_week : List Nat
  is_active : Bool
  last_run : Option Int
deriving DecidableEq

/-- One schedule's pass through `check_scheduled_shows`: returns the
updated row, the paths enqueued, and whether it fired. -/
def checkScheduleStep (now : Int) (weekday : Nat) (s : Schedule) :
    Schedule × List String × Bool :=
  if ¬ (s.is_active ∧ now - 60 ≤ s.scheduled_time ∧ s.scheduled_time ≤ now + 60) then
    (s, [], false)
  else if (match s.last_run with
           | some lr => decide (now - lr < 120)
           | none => false) then
    (s, [], false)
  else if s.repeat_type = "weekly" ∧ s.days_of_week ≠ [] ∧
          ¬ weekday ∈ s.days_of_week then
    (s, [], false)
  else
    ({ s with
        last_run := some now
        scheduled_time :=
          if s.repeat_type = "daily" then s.scheduled_time + 86400
          else if s.repeat_type = "weekly" then s.scheduled_time + 604800
          else s.scheduled_time
        is_active := if s.repeat_type = "once" then false else s.is_active },
     s.show_items, true)

/-! ## Track-Change Poller (`scheduler.poll_current_track`)

The poller asks the engine for its metadata dump, picks the most recent
section and parses `key="value"` lines; that extraction is upstream of the
claims and its result — the parsed metadata dictionary — is the input
here.  The code below line 322 is embedded: the composite identity check,
the catalog resolution, the NowPlaying / PlayHistory / play-count updates
and the song-counter invocation. -/

structure MetaD where
  title : String
  artist : String
  filename : String
  on_air : String
deriving DecidableEq

/-- The singleton `now_playing` row as written by `NowPlaying.update`. -/
structure NowRec where
  title : String
  artist : String
  filename : String
  category : String
  duration : Int
  audio_file_id : Option Nat
deriving DecidableEq

/-- One `play_history` row as inserted by the poller. -/
structure HistoryRow where
  audio_file_id : Option Nat
  filename : String
  title : String
  artist : String
  category : String
  triggered_by : String
deriving DecidableEq

/-- The persistent state the poller touches. -/
structure PollState where
  sys : SysState
  files : List AudioFile
  nowPlaying : Option NowRec
  history : List HistoryRow
deriving DecidableEq

/-- Python `a or b` on strings (`None` modeled as `""`). -/
def orStr (a b : String) : String :=
  if a = "" then b else a

/-- `full_path.split("/")[-1]` guarded by `if "/" in filename` — on a
string without `/`, `split` returns the string itself, so the guard is
equivalent to always taking the last component. -/
def lastPathComponent (p : String) : String :=
  (pySplit p '/').getLastD p

/-- The path-based category fallback: for `/media/<category>/...` take the
second component, otherwise the empty string. -/
def pathCategory (full_path : String) : String :=
  if strStarts full_path "/media/" then
    let parts := pySplit full_path '/'
    if 3 ≤ parts.length then parts.getD 2 "" else ""
  else ""

/-- The resolved category of the observed track: the catalog category when
the basename is found in the database, else the path-based category. -/
def resolveCategory (files : List AudioFile) (full_path : String) : String :=
  match files.find? (fun f => f.filename = lastPathComponent full_path) with
  | some f => f.category
  | none => pathCategory full_path

/-- `SystemState.get("last_track_id", "")` compared with the freshly
computed identity.  The identity always contains `_`, which no decimal,
ISO or bucket encoding does, so only a raw string can match it. -/
def lastTrackIdMatches (sys : SysState) (tid : String) : Bool :=
  match sysGet sys "last_track_id" with
  | some (SVal.rawStr s) => s = tid
  | some _ => false
  | none => "" = tid

/-- `scheduler.poll_current_track` from the parsed metadata on.
Returns `none` when `increment_song_counter` raises, and otherwise the
updated state together with the categories the song trigger dispatched.
The WebSocket broadcast at the end is a pure notification and is not part
of the state. -/
def poll_current_track (meta : MetaD) (now : DateTimeM)
    (rules : List RotationRule) (st : PollState) :
    Option (PollState × List String) :=
  if meta.filename = "" then some (st, [])
  else
    let track_id := meta.filename ++ "_" ++ meta.on_air
    if lastTrackIdMatches st.sys track_id then some (st, [])
    else
      let sys1 := sysSet st.sys "last_track_id" (SVal.rawStr track_id)
      let full_path := meta.filename
      let filename := lastPathComponent full_path
      let found := st.files.find? (fun f => f.filename = filename)
      let title0 :=
        match found with
        | some f => orStr f.title (orStr meta.title filename)
        | none => meta.title
      let artist :=
        match found with
        | some f => orStr f.artist meta.artist
        | none => meta.artist
      let duration : Int :=
        match found with
        | some f => f.duration
        | none => 0
      let category :=
        match found with
        | some f => f.category
        | none => pathCategory full_path
      let audio_file_id : Option Nat :=
        match found with
        | some f => some f.id
        | none => none
      let files2 :=
        match found with
        | some f =>
            st.files.map (fun g =>
              if g.id = f.id then
                { g with play_count := g.play_count + 1, last_played := some now }
              else g)
        | none => st.files
      let title := orStr title0 filename
      let np : NowRec :=
        ⟨title, artist, filename, category, duration, audio_file_id⟩
      let row : HistoryRow :=
        ⟨audio_file_id, filename, title, artist, category, "rotation"⟩
      let st2 : PollState :=
        { sys := sys1, files := files2, nowPlaying := some np,
          history := st.history ++ [row] }
      if category = "music" ∨ category = "" then
        match increment_song_counter rules now st2.sys with
        | none => none
        | some (sys3, ds) => some ({ st2 with sys := sys3 }, ds)
      else some (st2, [])

/-! # Theorems -/

/-- C10: the Queue Dispatcher routes every enqueue by category to exactly
one of the two queues — a category in the moderation set yields a push
command on the priority (moderation) queue, every other category a push
command on the normal queue. -/
theorem thm_C10_queue_routing (category path : String) :
    (category ∈ moderationCategories →
      queueCommand category path = "moderation_queue.push " ++ path) ∧
    (category ∉ moderationCategories →
      queueCommand category path = "queue.push " ++ path) := by
  constructor <;> intro h <;> simp [queueCommand, h]

/-- Witness for C10 at the two concrete routing cases. -/
theorem thm_C10_queue_routing_witness :
    queueCommand "random-moderation" "/media/a.mp3"
      = "moderation_queue.push " ++ "/media/a.mp3" ∧
    queueCommand "music" "/media/b.mp3" = "queue.push " ++ "/media/b.mp3" :=
  ⟨(thm_C10_queue_routing "random-moderation" "/media/a.mp3").1 (by decide),
   (thm_C10_queue_routing "music" "/media/b.mp3").2 (by decide)⟩

/-- C6 counterexample: `queue_track` (the enqueue of a track path) reports
success on a response that contains the substring `ERROR`, so it is not
true that every queue operation reports failure whenever the response
contains `ERROR`. -/
theorem cex_C6_queue_track_ignores_error :
    strContains "ERROR" "ERROR" = true ∧ queue_track (some "ERROR") = true := by
  exact ⟨by decide, rfl⟩

/-- C6 as amended: the helpers `remove_from_queue` and
`clear_moderation_queue`, and the database push branch of
`insert_from_category` (here with no directory fallback for the category),
treat a response containing `ERROR` as failure; but `queue_track` and
`skip_current_track` report success whenever any response was received,
even one containing `ERROR`. -/
theorem thm_C6_error_marker_handling (s : String)
    (h : strContains s "ERROR" = true) :
    remove_from_queue (some s) = false ∧
    clear_moderation_queue (some s) = false ∧
    (∀ (category : String) (f : AudioFile), command_map category = none →
      f.path ≠ "" →
      insert_from_category category (some f) (fun _ => some s) = false) ∧
    queue_track (some s) = true ∧
    skip_current_track (some s) = true := by
  refine ⟨?_, ?_, ?_, rfl, rfl⟩
  · simp [remove_from_queue, h]
  · simp [clear_moderation_queue, h]
  · intro category f hcm hp
    simp [insert_from_category, insertFallback, hp, h, hcm]

/-- Witness for C6 at a concrete `ERROR` response. -/
theorem thm_C6_error_marker_handling_witness :
    remove_from_queue (some "ERROR") = false ∧
    insert_from_category "music"
      (some ⟨7, "a.mp3", "music", "/media/music/a.mp3", 0, "", "", true, 0, none⟩)
      (fun _ => some "ERROR") = false ∧
    queue_track (some "ERROR") = true := by
  have h := thm_C6_error_marker_handling "ERROR" (by decide)
  exact ⟨h.1, h.2.2.1 "music" _ (by decide) (by decide), h.2.2.2.1⟩

/-- C5 counterexample: a read timeout after a partial chunk makes the
Control Channel return the decoded partial buffer (which does not contain
the terminator), not an absent response — contradicting the claim that a
timeout before the terminator is surfaced as a Failure and that every
non-Failure return contains the terminator. -/
theorem cex_C5_timeout_returns_partial :
    send_liquidsoap_command
        (NetOutcome.session [RecvEvent.data "par", RecvEvent.timedOut])
      = some "par" ∧
    strContains "par" "END" = false := by
  exact ⟨by decide, by decide⟩

/-- C5 as amended: the Control Channel returns an absent response exactly
when the connection attempt (or the send) raises; a read timeout or a peer
close before the terminator returns the accumulated decoded buffer, which
may lack the terminator; and when a first chunk already contains the
terminator the call returns that buffer (stripped). -/
theorem thm_C5_send_failure_semantics :
    (∀ o : NetOutcome,
      send_liquidsoap_command o = none ↔ o = NetOutcome.connectError) ∧
    (∀ (s : String) (rest : List RecvEvent), strContains s "END" = true →
      send_liquidsoap_command (NetOutcome.session (RecvEvent.data s :: rest))
        = some (pyStrip s)) := by
  constructor
  · intro o
    cases o with
    | connectError => simp [send_liquidsoap_command]
    | session evs => simp [send_liquidsoap_command]
  · intro s rest h
    have hne : s.isEmpty = false := by
      cases hE : s.isEmpty
      · rfl
      · exfalso
        rw [String.isEmpty_iff] at hE
        subst hE
        simp [strContains, charSeqIn] at h
    have hs : ("" : String) ++ s = s := by simp
    simp [send_liquidsoap_command, recvLoop, hne, hs, h]

/-- Witness for C5 at a concrete session whose first chunk holds the
terminator, and at a connect failure. -/
theorem thm_C5_send_failure_semantics_witness :
    send_liquidsoap_command (NetOutcome.session [RecvEvent.data "ansEND"])
      = some "ansEND" ∧
    send_liquidsoap_command NetOutcome.connectError = none := by
  constructor
  · have h := thm_C5_send_failure_semantics.2 "ansEND" [] (by decide)
    have hS : pyStrip "ansEND" = "ansEND" := by decide
    rw [hS] at h
    exact h
  · exact (thm_C5_send_failure_semantics.1 NetOutcome.connectError).mpr rfl

/-- Reading a key immediately after writing it yields the written value. -/
theorem sysGet_sysSet_self (sys : SysState) (k : String) (v : SVal) :
    sysGet (sysSet sys k v) k = some v := by
  induction sys with
  | nil => simp [sysSet, sysGet]
  | cons p rest ih =>
      by_cases h : p.1 = k
      · simp [sysSet, sysGet, h]
      · simp [sysSet, sysGet, h, ih]

/-- C4: when the composite identity `filename + "_" + on_air` of the
observed metadata equals the stored last-observed identity, the poller
invocation is a no-op — the state (play history, now-playing record,
counters in the key/value store, catalog rows) is returned unchanged and
nothing is dispatched. -/
theorem thm_C4_poll_dedup_noop (meta : MetaD) (now : DateTimeM)
    (rules : List RotationRule) (st : PollState)
    (h : lastTrackIdMatches st.sys (meta.filename ++ "_" ++ meta.on_air) = true) :
    poll_current_track meta now rules st = some (st, []) := by
  unfold poll_current_track
  by_cases hf : meta.filename = ""
  · simp [hf]
  · simp [hf, h]

/-- Witness for C4 at a concrete repeated observation. -/
theorem thm_C4_poll_dedup_noop_witness :
    poll_current_track ⟨"Song", "Artist", "/media/music/a.mp3", "true"⟩
        ⟨2026, 1, 5, 10, 15, 0, 0, 1767608100⟩ []
        ⟨[("last_track_id", SVal.rawStr "/media/music/a.mp3_true")], [], none, []⟩
      = some (⟨[("last_track_id", SVal.rawStr "/media/music/a.mp3_true")], [], none, []⟩, []) :=
  thm_C4_poll_dedup_noop _ _ _ _ (by decide)

/-- C7 counterexample: a detected track change whose resolved category is
the empty string — not the primary category `music` — still advances an
`after_songs` counter: for a file that is absent from the catalog and does
not live under `/media/`, the resolved category is `""`, yet after the
poll the counter `rule_1_song_counter` has moved from absent (0) to 1. -/
theorem cex_C7_empty_category_advances_counter :
    resolveCategory [] "x.mp3" = "" ∧
    (poll_current_track ⟨"", "", "x.mp3", ""⟩
        ⟨2026, 1, 5, 10, 15, 0, 0, 1767608100⟩
        [⟨1, "jingle rule", "after_songs", "jingles", 3, none, none, none,
          [0, 1, 2, 3, 4, 5, 6], 0, true⟩]
        ⟨[], [], none, []⟩).map (fun p => sysGet p.1.sys (ruleCounterKey 1))
      = some (some (SVal.intVal 1)) := by
  exact ⟨by decide, by decide⟩

/-- C7 as amended: the Song-Count Trigger is invoked on a detected track
change exactly when the resolved category is the primary category `music`
or the empty string (an unresolvable category); for every other resolved
category — jingles, promos, ads, moderation — no counter is advanced: the
only write to the key/value store is the new track identity, and nothing
is dispatched. -/
theorem thm_C7_song_trigger_gate (meta : MetaD) (now : DateTimeM)
    (rules : List RotationRule) (st : PollState)
    (hm : resolveCategory st.files meta.filename ≠ "music")
    (he : resolveCategory st.files meta.filename ≠ "")
    (hf : meta.filename ≠ "")
    (hid : lastTrackIdMatches st.sys (meta.filename ++ "_" ++ meta.on_air) = false) :
    ∃ st2 : PollState,
      poll_current_track meta now rules st = some (st2, []) ∧
      st2.sys = sysSet st.sys "last_track_id"
        (SVal.rawStr (meta.filename ++ "_" ++ meta.on_air)) := by
  unfold poll_current_track
  unfold resolveCategory at hm he
  cases hfound : st.files.find?
      (fun f => f.filename = lastPathComponent meta.filename) with
  | none =>
      rw [hfound] at hm he
      simp only [hf, hid, hfound, if_false, Bool.false_eq_true, ite_false]
      simp [hm, he]
  | some f =>
      rw [hfound] at hm he
      simp only [hf, hid, hfound, if_false, Bool.false_eq_true, ite_false]
      simp [hm, he]

/-- Witness for C7 at a concrete jingle track change. -/
theorem thm_C7_song_trigger_gate_witness :
    ∃ st2 : PollState,
      poll_current_track ⟨"J", "", "/media/jingles/j.mp3", "true"⟩
          ⟨2026, 1, 5, 10, 15, 0, 0, 1767608100⟩
          [⟨1, "jingle rule", "after_songs", "jingles", 3, none, none, none,
            [0, 1, 2, 3, 4, 5, 6], 0, true⟩]
          ⟨[], [], none, []⟩ = some (st2, []) ∧
      st2.sys = sysSet [] "last_track_id"
        (SVal.rawStr ("/media/jingles/j.mp3" ++ "_" ++ "true")) :=
  thm_C7_song_trigger_gate _ _ _ _ (by decide) (by decide) (by decide) (by decide)

/-- C9: a schedule with repeat type `once` that fires has its items
enqueued and, in the same step, `last_run` set and the record deactivated;
the deactivated record never fires again — any later check, in particular
one inside the tolerance window around its `scheduled_time`, enqueues
nothing for it and leaves it unchanged. -/
theorem thm_C9_once_schedule_idempotent (s : Schedule) (now : Int) (wd : Nat)
    (h_once : s.repeat_type = "once")
    (h_fired : (checkScheduleStep now wd s).2.2 = true) :
    (checkScheduleStep now wd s).1.is_active = false ∧
    (checkScheduleStep now wd s).1.last_run = some now ∧
    (checkScheduleStep now wd s).2.1 = s.show_items ∧
    (∀ (now2 : Int) (wd2 : Nat),
      checkScheduleStep now2 wd2 (checkScheduleStep now wd s).1
        = ((checkScheduleStep now wd s).1, [], false)) := by
  have hstep : checkScheduleStep now wd s =
      ({ s with
          last_run := some now
          scheduled_time :=
            if s.repeat_type = "daily" then s.scheduled_time + 86400
            else if s.repeat_type = "weekly" then s.scheduled_time + 604800
            else s.scheduled_time
          is_active := if s.repeat_type = "once" then false else s.is_active },
       s.show_items, true) := by
    unfold checkScheduleStep at h_fired ⊢
    split at h_fired
    · simp at h_fired
    · split at h_fired
      · simp at h_fired
      · split at h_fired
        · simp at h_fired
        · rename_i h1 h2 h3
          rw [if_neg h1, if_neg h2, if_neg h3]
  rw [hstep]
  refine ⟨by simp [h_once], rfl, rfl, ?_⟩
  intro now2 wd2
  unfold checkScheduleStep
  simp [h_once]

/-- Witness for C9 at a concrete once-schedule that fires at `now = 1010`
and is checked again at `now = 1030`, inside the tolerance window. -/
theorem thm_C9_once_schedule_idempotent_witness :
    (checkScheduleStep 1010 2 ⟨1, ["/a.mp3", "/b.mp3"], 1000, "once", [], true, none⟩).1.is_active
      = false ∧
    (checkScheduleStep 1010 2 ⟨1, ["/a.mp3", "/b.mp3"], 1000, "once", [], true, none⟩).2.1
      = ["/a.mp3", "/b.mp3"] ∧
    checkScheduleStep 1030 2
        (checkScheduleStep 1010 2 ⟨1, ["/a.mp3", "/b.mp3"], 1000, "once", [], true, none⟩).1
      = ((checkScheduleStep 1010 2 ⟨1, ["/a.mp3", "/b.mp3"], 1000, "once", [], true, none⟩).1,
         [], false) := by
  have h := thm_C9_once_schedule_idempotent
    ⟨1, ["/a.mp3", "/b.mp3"], 1000, "once", [], true, none⟩ 1010 2 rfl (by decide)
  exact ⟨h.1, h.2.2.1, h.2.2.2 1030 2⟩

/-- The evaluator body ignores rules of type `after_songs`: whatever the
gates say, the branch is an unconditional `continue`. -/
theorem checkRuleStep_after_songs (r : RotationRule) (now : DateTimeM)
    (sys : SysState) (h : r.rule_type = "after_songs") :
    checkRuleStep r now sys = (sys, false) := by
  unfold checkRuleStep
  rw [h]
  simp

/-- Dropping the `after_songs` rules from the evaluator loop does not
change its result. -/
theorem checkRulesGo_skips_after_songs (now : DateTimeM) :
    ∀ (l : List RotationRule) (sys : SysState),
      checkRulesGo (l.filter (fun r => decide (r.rule_type ≠ "after_songs"))) now sys
        = checkRulesGo l now sys := by
  intro l
  induction l with
  | nil => intro sys; rfl
  | cons r rest ih =>
      intro sys
      by_cases h : r.rule_type = "after_songs"
      · rw [List.filter_cons_of_neg (by simp [h])]
        rw [ih sys]
        conv_rhs => rw [checkRulesGo]
        rw [checkRuleStep_after_songs r now sys h]
        simp
      · rw [List.filter_cons_of_pos (by simp [h])]
        rw [checkRulesGo, checkRulesGo, ih]

/-- C8: a rule of type `after_songs` is never evaluated by the
timer-driven rule evaluator — the evaluator result is the same as on the
rule set with all `after_songs` rules removed, and the per-rule step of an
`after_songs` rule leaves the store untouched and dispatches nothing. -/
theorem thm_C8_after_songs_skipped_by_evaluator (rules : List RotationRule)
    (now : DateTimeM) (sys : SysState) :
    check_rotation_rules rules now sys
      = check_rotation_rules
          (rules.filter (fun r => decide (r.rule_type ≠ "after_songs"))) now sys
    ∧ ∀ r : RotationRule, r.rule_type = "after_songs" →
        checkRuleStep r now sys = (sys, false) := by
  constructor
  · unfold check_rotation_rules
    rw [List.filter_comm]
    rw [checkRulesGo_skips_after_songs]
  · intro r h
    exact checkRuleStep_after_songs r now sys h

/-- Witness for C8 at a concrete `after_songs` rule and a mixed rule
list. -/
theorem thm_C8_after_songs_skipped_by_evaluator_witness :
    checkRuleStep
        ⟨1, "jingle rule", "after_songs", "jingles", 3, none, none, none,
          [0, 1, 2, 3, 4, 5, 6], 0, true⟩
        ⟨2026, 1, 5, 10, 15, 0, 0, 1767608100⟩
        [(ruleCounterKey 1, SVal.intVal 2)]
      = ([(ruleCounterKey 1, SVal.intVal 2)], false) :=
  (thm_C8_after_songs_skipped_by_evaluator [] ⟨2026, 1, 5, 10, 15, 0, 0, 1767608100⟩
    [(ruleCounterKey 1, SVal.intVal 2)]).2 _ rfl

/-- Case analysis of the `at_minute` branch: either the step is a no-op,
or it fires, stores the current hour bucket, and did so because the minute
matched while the stored value differed from the current bucket. -/
theorem atMinuteCases (r : RotationRule) (now : DateTimeM) (sys : SysState)
    (h : r.rule_type = "at_minute") :
    checkRuleStep r now sys = (sys, false) ∨
    (checkRuleStep r now sys
        = (sysSet sys (ruleLastTriggerKey r.id) (SVal.bucketVal (nowBucket now)), true) ∧
      r.minute_of_hour = some now.minute ∧
      svalEqBucket (sysGet sys (ruleLastTriggerKey r.id)) (nowBucket now) = false) := by
  unfold checkRuleStep
  rw [h]
  by_cases hd : dayGateOk r now
  case neg => simp [hd]
  by_cases ht : timeGateOk r now
  case neg => simp [hd, ht]
  by_cases hmin : r.minute_of_hour = some now.minute
  case neg => simp [hd, ht, hmin]
  by_cases hcond : atMinuteDue (nowBucket now)
      (sysGet sys (ruleLastTriggerKey r.id)) = true
  case neg => simp [hd, ht, hmin, hcond]
  refine Or.inr ⟨by simp [hd, ht, hmin, hcond], hmin, ?_⟩
  cases heq : svalEqBucket (sysGet sys (ruleLastTriggerKey r.id)) (nowBucket now)
  · rfl
  · exfalso
    unfold atMinuteDue at hcond
    rw [heq] at hcond
    simp at hcond
    cases hv : sysGet sys (ruleLastTriggerKey r.id) with
    | none => rw [hv] at heq; simp [svalEqBucket] at heq
    | some v =>
        rw [hv] at hcond heq
        cases v <;> simp [svalFalsy, svalEqBucket] at hcond heq

/-- Once the stored bucket equals the current hour bucket, the `at_minute`
step is a no-op. -/
theorem atMinute_stable (r : RotationRule) (now : DateTimeM) (sys : SysState)
    (h : r.rule_type = "at_minute")
    (hstored : sysGet sys (ruleLastTriggerKey r.id)
      = some (SVal.bucketVal (nowBucket now))) :
    checkRuleStep r now sys = (sys, false) := by
  rcases atMinuteCases r now sys h with hc | ⟨_, _, hne⟩
  · exact hc
  · exfalso
    rw [hstored] at hne
    simp [svalEqBucket] at hne

/-- With the current bucket already stored, an `at_minute` rule stays
silent for a whole sequence of ticks in that bucket. -/
theorem runRuleTicks_stable (r : RotationRule) (h : r.rule_type = "at_minute")
    (B : HourBucket) :
    ∀ (ticks : List DateTimeM) (sys : SysState),
      (∀ t ∈ ticks, nowBucket t = B) →
      sysGet sys (ruleLastTriggerKey r.id) = some (SVal.bucketVal B) →
      runRuleTicks r ticks sys = (sys, 0) := by
  intro ticks
  induction ticks with
  | nil => intro sys _ _; rfl
  | cons t ts ih =>
      intro sys hB hstored
      have ht : nowBucket t = B := hB t (List.mem_cons_self t ts)
      have hstep : checkRuleStep r t sys = (sys, false) := by
        apply atMinute_stable r t sys h
        rw [ht]
        exact hstored
      rw [runRuleTicks, hstep, ih sys (fun u hu => hB u (List.mem_cons_of_mem t hu)) hstored]
      simp

/-- An `at_minute` rule fires at most once over any set of ticks that all
lie in one hour bucket. -/
theorem runRuleTicks_le_one (r : RotationRule) (h : r.rule_type = "at_minute")
    (B : HourBucket) :
    ∀ (ticks : List DateTimeM) (sys : SysState),
      (∀ t ∈ ticks, nowBucket t = B) →
      (runRuleTicks r ticks sys).2 ≤ 1 := by
  intro ticks
  induction ticks with
  | nil => intro sys _; simp [runRuleTicks]
  | cons t ts ih =>
      intro sys hB
      have ht : nowBucket t = B := hB t (List.mem_cons_self t ts)
      have hBts : ∀ u ∈ ts, nowBucket u = B :=
        fun u hu => hB u (List.mem_cons_of_mem t hu)
      rcases atMinuteCases r t sys h with hc | ⟨hstep, _, _⟩
      · rw [runRuleTicks, hc]
        simpa using ih sys hBts
      · rw [runRuleTicks, hstep]
        have hrest := runRuleTicks_stable r h B ts
          (sysSet sys (ruleLastTriggerKey r.id) (SVal.bucketVal (nowBucket t)))
          hBts (by rw [sysGet_sysSet_self, ht])
        rw [hrest]
        simp

/-- C2: across any sequence of evaluator ticks whose times lie in the same
calendar hour bucket, an `at_minute` rule fires at most once; moreover it
fires only when the current minute equals `minute_of_hour` and the stored
`rule_id_last_trigger` value differs from the current hour-bucket string,
and on fire the new hour bucket is stored. -/
theorem thm_C2_at_minute_once_per_hour (r : RotationRule)
    (ticks : List DateTimeM) (t0 : DateTimeM) (sys : SysState)
    (h : r.rule_type = "at_minute")
    (hB : ∀ t ∈ ticks, nowBucket t = nowBucket t0) :
    (runRuleTicks r ticks sys).2 ≤ 1 ∧
    (∀ (t : DateTimeM) (s : SysState), (checkRuleStep r t s).2 = true →
      r.minute_of_hour = some t.minute ∧
      svalEqBucket (sysGet s (ruleLastTriggerKey r.id)) (nowBucket t) = false ∧
      sysGet (checkRuleStep r t s).1 (ruleLastTriggerKey r.id)
        = some (SVal.bucketVal (nowBucket t))) := by
  constructor
  · exact runRuleTicks_le_one r h (nowBucket t0) ticks sys hB
  · intro t s hf
    rcases atMinuteCases r t s h with hc | ⟨hstep, hmin, hne⟩
    · rw [hc] at hf; simp at hf
    · exact ⟨hmin, hne, by rw [hstep]; exact sysGet_sysSet_self _ _ _⟩

/-- Witness for C2: three ticks in the same hour — two in the matching
minute — yield exactly one fire, and the first tick fires while storing
the bucket. -/
theorem thm_C2_at_minute_once_per_hour_witness :
    (runRuleTicks
        ⟨2, "top of hour", "at_minute", "promos", 0, none, none, some 15,
          [0, 1, 2, 3, 4, 5, 6], 0, true⟩
        [⟨2026, 1, 5, 10, 15, 0, 0, 1767608100⟩,
         ⟨2026, 1, 5, 10, 15, 30, 0, 1767608130⟩,
         ⟨2026, 1, 5, 10, 16, 0, 0, 1767608160⟩]
        []).2 ≤ 1 :=
  (thm_C2_at_minute_once_per_hour _ _ ⟨2026, 1, 5, 10, 15, 0, 0, 1767608100⟩ []
    rfl (by decide)).1

/-- Case analysis of the `interval` branch: either the step is a no-op, or
it fires, stores the current timestamp, and — when the stored cursor was a
parsed timestamp — the elapsed time had reached the threshold. -/
theorem intervalCases (r : RotationRule) (now : DateTimeM) (sys : SysState)
    (h : r.rule_type = "interval") :
    checkRuleStep r now sys = (sys, false) ∨
    (checkRuleStep r now sys
        = (sysSet sys (ruleLastTriggerKey r.id) (SVal.timeVal now), true) ∧
      (∀ t, sysGet sys (ruleLastTriggerKey r.id) = some (SVal.timeVal t) →
        now.abs - t.abs ≥ r.interval_value * 60)) := by
  unfold checkRuleStep
  rw [h]
  by_cases hd : dayGateOk r now
  case neg => simp [hd]
  by_cases ht : timeGateOk r now
  case neg => simp [hd, ht]
  by_cases hiv : r.interval_value > 0
  case neg => simp [hd, ht, hiv]
  by_cases hdue : intervalDue r.interval_value now.abs
      (sysGet sys (ruleLastTriggerKey r.id)) = true
  case neg => simp [hd, ht, hiv, hdue]
  refine Or.inr ⟨by simp [hd, ht, hiv, hdue], ?_⟩
  intro t hv
  rw [hv] at hdue
  simpa [intervalDue] using hdue

/-- Positive direction: with the gates passing, a positive interval and a
due cursor, the `interval` branch fires and stores the current time. -/
theorem interval_fires (r : RotationRule) (now : DateTimeM) (sys : SysState)
    (h : r.rule_type = "interval")
    (hd : dayGateOk r now = true) (ht : timeGateOk r now = true)
    (hiv : 0 < r.interval_value)
    (hdue : intervalDue r.interval_value now.abs
      (sysGet sys (ruleLastTriggerKey r.id)) = true) :
    checkRuleStep r now sys
      = (sysSet sys (ruleLastTriggerKey r.id) (SVal.timeVal now), true) := by
  unfold checkRuleStep
  rw [h]
  simp [hd, ht, hiv, hdue]

/-- C3: an `interval` rule with positive value that passes the gates fires
on the first eligible tick when no cursor is stored, fires when the
elapsed time since a validly stored timestamp reaches `interval_value`
minutes, stores the current timestamp on every fire, and therefore two
consecutive fires are at least `interval_value` minutes apart. -/
theorem thm_C3_interval_spacing (r : RotationRule) (now now2 : DateTimeM)
    (sys : SysState) (h : r.rule_type = "interval")
    (hd : dayGateOk r now = true) (ht : timeGateOk r now = true)
    (hiv : 0 < r.interval_value) :
    (sysGet sys (ruleLastTriggerKey r.id) = none →
      checkRuleStep r now sys
        = (sysSet sys (ruleLastTriggerKey r.id) (SVal.timeVal now), true)) ∧
    (∀ t, sysGet sys (ruleLastTriggerKey r.id) = some (SVal.timeVal t) →
      now.abs - t.abs ≥ r.interval_value * 60 →
      checkRuleStep r now sys
        = (sysSet sys (ruleLastTriggerKey r.id) (SVal.timeVal now), true)) ∧
    ((checkRuleStep r now sys).2 = true →
      sysGet (checkRuleStep r now sys).1 (ruleLastTriggerKey r.id)
        = some (SVal.timeVal now)) ∧
    ((checkRuleStep r now sys).2 = true →
      (checkRuleStep r now2 (checkRuleStep r now sys).1).2 = true →
      now2.abs - now.abs ≥ r.interval_value * 60) := by
  refine ⟨?_, ?_, ?_, ?_⟩
  · intro hnone
    exact interval_fires r now sys h hd ht hiv (by rw [hnone]; rfl)
  · intro t hv helapsed
    exact interval_fires r now sys h hd ht hiv
      (by rw [hv]; simpa [intervalDue] using helapsed)
  · intro hf
    rcases intervalCases r now sys h with hc | ⟨hstep, _⟩
    · rw [hc] at hf; simp at hf
    · rw [hstep]; exact sysGet_sysSet_self _ _ _
  · intro hf1 hf2
    rcases intervalCases r now sys h with hc | ⟨hstep, _⟩
    · rw [hc] at hf1; simp at hf1
    · have hstep1 : (checkRuleStep r now sys).1
          = sysSet sys (ruleLastTriggerKey r.id) (SVal.timeVal now) := by
        rw [hstep]
      rw [hstep1] at hf2
      rcases intervalCases r now2
          (sysSet sys (ruleLastTriggerKey r.id) (SVal.timeVal now)) h with
        hc2 | ⟨_, hcond2⟩
      · rw [hc2] at hf2; simp at hf2
      · exact hcond2 now (sysGet_sysSet_self _ _ _)

/-- Witness for C3 at a concrete 20-minute rule: the first eligible tick
fires with no cursor stored, and the fire-to-fire spacing bound holds at
two fires 20 minutes apart. -/
theorem thm_C3_interval_spacing_witness :
    checkRuleStep
        ⟨3, "every 20", "interval", "ads", 20, none, none, none,
          [0, 1, 2, 3, 4, 5, 6], 0, true⟩
        ⟨2026, 1, 5, 10, 15, 0, 0, 1767608100⟩ []
      = (sysSet [] (ruleLastTriggerKey 3)
          (SVal.timeVal ⟨2026, 1, 5, 10, 15, 0, 0, 1767608100⟩), true) ∧
    ((1767609300 : Int) - 1767608100 ≥ 20 * 60) := by
  have h := thm_C3_interval_spacing
    ⟨3, "every 20", "interval", "ads", 20, none, none, none,
      [0, 1, 2, 3, 4, 5, 6], 0, true⟩
    ⟨2026, 1, 5, 10, 15, 0, 0, 1767608100⟩
    ⟨2026, 1, 5, 10, 35, 0, 0, 1767609300⟩ [] rfl (by decide) (by decide)
    (by decide)
  refine ⟨h.1 rfl, ?_⟩
  exact h.2.2.2 (by decide) (by decide)

/-- A single invocation of the Song-Count Trigger on one qualifying rule
whose stored counter is the integer `c`: the counter is bumped to `c + 1`
and either the threshold fires (dispatch and reset to 0) or the bumped
value is persisted. -/
theorem inc_single_step (r : RotationRule) (now : DateTimeM) (sys : SysState)
    (c : Int)
    (hrt : r.rule_type = "after_songs") (hact : r.is_active = true)
    (hd : dayGateOk r now = true) (ht : timeGateOk r now = true)
    (hc : sysGet sys (ruleCounterKey r.id) = some (SVal.intVal c)) :
    increment_song_counter [r] now sys
      = (if c + 1 ≥ r.interval_value
         then some (sysSet sys (ruleCounterKey r.id) (SVal.intVal 0), [r.category])
         else some (sysSet sys (ruleCounterKey r.id) (SVal.intVal (c + 1)), [])) := by
  unfold increment_song_counter
  rw [List.filter_cons_of_pos (by simp [hrt, hact])]
  rw [List.filter_nil]
  unfold incSongGo
  rw [hc]
  simp only [hd, ht, not_true, if_false, counterValue?, svalToInt?]
  split <;> simp [incSongGo]

/-- Iterating the trigger from a zero counter: for the first `k < T`
qualifying track changes nothing is dispatched and the persisted counter
reads exactly `k`. -/
theorem incIter_progress (r : RotationRule) (now : DateTimeM)
    (hrt : r.rule_type = "after_songs") (hact : r.is_active = true)
    (hd : dayGateOk r now = true) (ht : timeGateOk r now = true)
    (T : Nat) (hT : r.interval_value = (T : Int)) :
    ∀ (k : Nat), k < T → ∀ sys : SysState,
      sysGet sys (ruleCounterKey r.id) = some (SVal.intVal 0) →
      ∃ s, incIter [r] now sys k = some (s, 0) ∧
        sysGet s (ruleCounterKey r.id) = some (SVal.intVal (k : Int)) := by
  intro k
  induction k with
  | zero => intro _ sys hc; exact ⟨sys, rfl, by simpa using hc⟩
  | succ k ih =>
      intro hk sys hc
      obtain ⟨s, hs, hcs⟩ := ih (Nat.lt_of_succ_lt hk) sys hc
      have hstep := inc_single_step r now s (k : Int) hrt hact hd ht hcs
      have hlt : ¬ ((k : Int) + 1 ≥ r.interval_value) := by
        rw [hT]
        omega
      rw [if_neg hlt] at hstep
      refine ⟨sysSet s (ruleCounterKey r.id) (SVal.intVal ((k : Int) + 1)), ?_, ?_⟩
      · show incIter [r] now sys (k + 1) = _
        unfold incIter
        rw [hs]
        simp [hstep]
      · rw [sysGet_sysSet_self]
        norm_cast

/-- C1: for a qualifying `after_songs` rule, one invocation of the
Song-Count Trigger bumps the persisted counter by exactly one, dispatching
the rule's category and resetting to 0 at the threshold and persisting the
bumped value otherwise; consequently, starting from a zero counter with
threshold `T > 0`, `T` consecutive qualifying track changes produce
exactly one dispatch and leave the counter at 0. -/
theorem thm_C1_song_counter_threshold (r : RotationRule) (now : DateTimeM)
    (sys : SysState) (c : Int) (T : Nat)
    (hrt : r.rule_type = "after_songs") (hact : r.is_active = true)
    (hd : dayGateOk r now = true) (ht : timeGateOk r now = true) :
    (sysGet sys (ruleCounterKey r.id) = some (SVal.intVal c) →
      increment_song_counter [r] now sys
        = (if c + 1 ≥ r.interval_value
           then some (sysSet sys (ruleCounterKey r.id) (SVal.intVal 0), [r.category])
           else some (sysSet sys (ruleCounterKey r.id) (SVal.intVal (c + 1)), []))) ∧
    (r.interval_value = (T : Int) → 0 < T →
      sysGet sys (ruleCounterKey r.id) = some (SVal.intVal 0) →
      ∃ sEnd, incIter [r] now sys T = some (sEnd, 1) ∧
        sysGet sEnd (ruleCounterKey r.id) = some (SVal.intVal 0)) := by
  constructor
  · intro hc
    exact inc_single_step r now sys c hrt hact hd ht hc
  · intro hT h1 hc
    obtain ⟨Tm, rfl⟩ : ∃ Tm, T = Tm + 1 := ⟨T - 1, by omega⟩
    obtain ⟨s, hs, hcs⟩ :=
      incIter_progress r now hrt hact hd ht (Tm + 1) hT Tm (by omega) sys hc
    have hstep := inc_single_step r now s (Tm : Int) hrt hact hd ht hcs
    have hge : (Tm : Int) + 1 ≥ r.interval_value := by
      rw [hT]
      push_cast
      omega
    rw [if_pos hge] at hstep
    refine ⟨sysSet s (ruleCounterKey r.id) (SVal.intVal 0), ?_,
      sysGet_sysSet_self _ _ _⟩
    show incIter [r] now sys (Tm + 1) = _
    unfold incIter
    rw [hs]
    simp [hstep]

/-- Witness for C1: a threshold-3 rule, counter stored at 0 — one track
change moves the counter to 1 without dispatch, and three track changes
dispatch exactly once leaving the counter at 0. -/
theorem thm_C1_song_counter_threshold_witness :
    increment_song_counter
        [⟨1, "jingle rule", "after_songs", "jingles", 3, none, none, none,
          [0, 1, 2, 3, 4, 5, 6], 0, true⟩]
        ⟨2026, 1, 5, 10, 15, 0, 0, 1767608100⟩
        [(ruleCounterKey 1, SVal.intVal 0)]
      = some (sysSet [(ruleCounterKey 1, SVal.intVal 0)] (ruleCounterKey 1)
          (SVal.intVal 1), []) ∧
    (∃ sEnd, incIter
        [⟨1, "jingle rule", "after_songs", "jingles", 3, none, none, none,
          [0, 1, 2, 3, 4, 5, 6], 0, true⟩]
        ⟨2026, 1, 5, 10, 15, 0, 0, 1767608100⟩
        [(ruleCounterKey 1, SVal.intVal 0)] 3 = some (sEnd, 1) ∧
      sysGet sEnd (ruleCounterKey 1) = some (SVal.intVal 0)) := by
  have h := thm_C1_song_counter_threshold
    ⟨1, "jingle rule", "after_songs", "jingles", 3, none, none, none,
      [0, 1, 2, 3, 4, 5, 6], 0, true⟩
    ⟨2026, 1, 5, 10, 15, 0, 0, 1767608100⟩
    [(ruleCounterKey 1, SVal.intVal 0)] 0 3 rfl rfl (by decide) (by decide)
  constructor
  · have h1 := h.1 (by simp [sysGet])
    rw [if_neg (by decide)] at h1
    simpa using h1
  · exact h.2 (by norm_num) (by norm_num) (by simp [sysGet])

end RadioAutomation
